import Mathlib

/-!
Verification of the flight-delay model repository (`challenge/model.py`,
`challenge/api.py`) against its natural-language specification.

The Python source is shallowly embedded: pandas dataframes become lists of
records, dataframe columns become association lists from column names to
per-record value functions, machine arithmetic on timestamps becomes exact
`Int`/`Rat` arithmetic, and fallible operations return `Option`/`Except`.
-/

namespace Challenge

/-! ## Data model: raw flight records (`OPERA`, `TIPOVUELO`, `MES` columns) -/

/-- A raw flight record as consumed by `DelayModel.preprocess`: the `OPERA`
carrier string, the `TIPOVUELO` flight-type string, and the integer `MES`
month column. -/
structure FlightRecord where
  opera : String
  tipovuelo : String
  mes : Nat
deriving DecidableEq, Repr

/-- A pandas column name produced by `pd.get_dummies(..., prefix=p)`.
In the source these are the strings `"OPERA_" + v`, `"TIPOVUELO_" + v` and
`"MES_" + str(m)`; since the three prefixes are distinct and string append
is injective on the suffix, the names are represented by a structured type
whose constructor records the prefix and whose argument records the value. -/
inductive ColName
  | opera (v : String)
  | tipovuelo (v : String)
  | mes (v : Nat)
deriving DecidableEq, Repr

/-- `DelayModel.TOP_10_FEATURES`: the fixed catalog of ten feature columns,
in source order. -/
def TOP_10_FEATURES : List ColName :=
  [ .opera "Latin American Wings"
  , .mes 7
  , .mes 10
  , .opera "Grupo LATAM"
  , .mes 12
  , .tipovuelo "I"
  , .mes 4
  , .mes 11
  , .opera "Sky Airline"
  , .opera "Copa Air" ]

/-- One dummy column generated from an `OPERA` value `v`: its name and the
indicator it assigns to each row (`pd.get_dummies` semantics: the cell is 1
exactly when the row's value equals the column's category). -/
def operaDummy (v : String) : ColName × (FlightRecord → Nat) :=
  (.opera v, fun r => if r.opera = v then 1 else 0)

/-- One dummy column generated from a `TIPOVUELO` value. -/
def tipovueloDummy (v : String) : ColName × (FlightRecord → Nat) :=
  (.tipovuelo v, fun r => if r.tipovuelo = v then 1 else 0)

/-- One dummy column generated from a `MES` value. -/
def mesDummy (v : Nat) : ColName × (FlightRecord → Nat) :=
  (.mes v, fun r => if r.mes = v then 1 else 0)

/-- The concatenated dummy frame built by `preprocess` lines 62-66: one
column per distinct value of each of the three raw columns present in the
batch (`pd.get_dummies` derives its columns from the values that occur in
the encoded series). -/
def getDummies (batch : List FlightRecord) : List (ColName × (FlightRecord → Nat)) :=
  ((batch.map (·.opera)).dedup).map operaDummy
    ++ ((batch.map (·.tipovuelo)).dedup).map tipovueloDummy
    ++ ((batch.map (·.mes)).dedup).map mesDummy

/-- Column lookup in the dummy frame after the loop at lines 69-71: a
catalog column missing from the batch-derived frame is added holding the
constant 0 (`features[feature] = 0`). -/
def featureValue (batch : List FlightRecord) (c : ColName) (r : FlightRecord) : Nat :=
  match (getDummies batch).find? (fun col => decide (col.1 = c)) with
  | some col => col.2 r
  | none => 0

/-- The row of the reindexed frame `features[TOP_10_FEATURES]` (line 74)
belonging to record `r` of the batch. -/
def preprocessRow (batch : List FlightRecord) (r : FlightRecord) : List Nat :=
  TOP_10_FEATURES.map (fun c => featureValue batch c r)

/-- `DelayModel.preprocess` restricted to its feature output: dummy-encode
the batch, complete the missing catalog columns with zeros, and reindex onto
the fixed ten-column catalog. -/
def preprocess (batch : List FlightRecord) : List (List Nat) :=
  batch.map (preprocessRow batch)

/-- Modelled from the spec: the per-record equality-test indicator of §4.1 —
the indicator for a catalog entry is 1 exactly when the record's attribute
equals the entry's literal. Used as the refinement target for `preprocess`. -/
def indicator (r : FlightRecord) : ColName → Nat
  | .opera v => if r.opera = v then 1 else 0
  | .tipovuelo v => if r.tipovuelo = v then 1 else 0
  | .mes v => if r.mes = v then 1 else 0

/-- Modelled from the spec: the batch-independent per-record encoder
(§4.1): the ten catalog indicators of a single record, in catalog order. -/
def encodeRecord (r : FlightRecord) : List Nat :=
  TOP_10_FEATURES.map (indicator r)

/-! ## Timestamps and the delay label (`_generate_delay_target`) -/

/-- A timestamp successfully parsed by
`datetime.strptime(s, '%Y-%m-%d %H:%M:%S')`. -/
structure PyDateTime where
  year : Int
  month : Nat
  day : Nat
  hour : Nat
  minute : Nat
  second : Nat
deriving DecidableEq, Repr

/-- Days since the Unix epoch of a proleptic-Gregorian civil date: the
ordinal arithmetic underlying Python `datetime` subtraction. -/
def daysFromCivil (y : Int) (m d : Nat) : Int :=
  let yAdj : Int := if m ≤ 2 then y - 1 else y
  let era : Int := (if 0 ≤ yAdj then yAdj else yAdj - 399) / 400
  let yoe : Int := yAdj - era * 400
  let doy : Int := (153 * (if 2 < m then (m : Int) - 3 else (m : Int) + 9) + 2) / 5 + (d : Int) - 1
  let doe : Int := yoe * 365 + yoe / 4 - yoe / 100 + doy
  era * 146097 + doe - 719468

/-- Seconds since the epoch; `(fecha_o - fecha_i).total_seconds()` in the
source equals `toSeconds fecha_o - toSeconds fecha_i`. -/
def toSeconds (t : PyDateTime) : Int :=
  daysFromCivil t.year t.month t.day * 86400
    + (t.hour : Int) * 3600 + (t.minute : Int) * 60 + (t.second : Int)

/-- The value found at `row['Fecha-O']` / `row['Fecha-I']` in a raw
training row, as seen by `calculate_min_diff`. -/
inductive FechaCell
  | missing
  | nonString
  | malformed
  | parsed (t : PyDateTime)
deriving DecidableEq, Repr

/-- Reading and `strptime`-parsing the cell: `none` when the attempt raises
(`KeyError` for a missing column, `TypeError` for a non-string value,
`ValueError` for a string not matching `'%Y-%m-%d %H:%M:%S'`). -/
def strptimeCell : FechaCell → Option PyDateTime
  | .parsed t => some t
  | _ => none

/-- `calculate_min_diff` (model.py lines 99-107): the signed minute
difference `fecha_o - fecha_i`; the bare `except` returns 0 whenever
reading or parsing either field raises. -/
def calculate_min_diff (fechaO fechaI : FechaCell) : ℚ :=
  match strptimeCell fechaO, strptimeCell fechaI with
  | some o, some i => ((toSeconds o - toSeconds i : Int) : ℚ) / 60
  | _, _ => 0

/-- `threshold_in_minutes` (model.py line 113). -/
def threshold_in_minutes : ℚ := 15

/-- `np.where(data['min_diff'] > threshold_in_minutes, 1, 0)` (line 114):
the binary delay label derived from a minute difference. -/
def delayOf (minDiff : ℚ) : Nat :=
  if threshold_in_minutes < minDiff then 1 else 0

/-- The delay target `_generate_delay_target` assigns to one training row. -/
def delayTarget (fechaO fechaI : FechaCell) : Nat :=
  delayOf (calculate_min_diff fechaO fechaI)

/-! ## The fitted classifier and `DelayModel.predict` -/

/-- The parameters of a fitted binary logistic-regression classifier that
determine its predictions: the weight vector `coef_`, the intercept
`intercept_`, and the class labels `classes_`. -/
structure Classifier where
  coef : List ℚ
  intercept : ℚ
  classes : List Int
deriving DecidableEq, Repr

/-- Dot product of the weight vector with a feature row. -/
def dot (a b : List ℚ) : ℚ :=
  (List.zipWith (fun x y => x * y) a b).sum

/-- Binary prediction of a fitted classifier on one row: the sigmoid of the
decision score `w·x + b` exceeds 1/2 exactly when the score is positive, in
which case `classes_[1]` is predicted, else `classes_[0]`. -/
def predictOne (c : Classifier) (x : List ℚ) : Int :=
  if 0 < dot c.coef x + c.intercept then c.classes.getD 1 0 else c.classes.getD 0 0

/-- `DelayModel.predict` (model.py lines 151-172): `self._model` is `none`
when no classifier is loaded, in which case the default
`[0] * len(features)` is returned; otherwise each feature row is
classified. -/
def predict (model : Option Classifier) (features : List (List ℚ)) : List Int :=
  match model with
  | none => List.replicate features.length 0
  | some c => features.map (predictOne c)

/-- The preprocessed 0/1 feature matrix viewed as the numeric matrix fed to
the classifier. -/
def toQMatrix (m : List (List Nat)) : List (List ℚ) :=
  m.map (fun row => row.map (fun n => (n : ℚ)))

/-- The class-weight computation of `DelayModel.fit` (model.py lines
137-140): `n_y0 = (target == 0).sum()`, `n_y1 = (target == 1).sum()`,
`class_weight = {1: n_y0/len(target), 0: n_y1/len(target)}`; returned as
(weight of class 1, weight of class 0). -/
def classWeights (target : List Int) : ℚ × ℚ :=
  let n0 : ℚ := ((target.filter (fun l => decide (l = 0))).length : ℚ)
  let n1 : ℚ := ((target.filter (fun l => decide (l = 1))).length : ℚ)
  (n0 / (target.length : ℚ), n1 / (target.length : ℚ))

/-! ## Model persistence (`save_model` / `load_model`) -/

/-- The pickled artifact: a flat sequence of rationals holding the length
of the weight vector, the weights, the intercept, and the class labels. -/
abbrev Blob := List ℚ

/-- Serialize the classifier parameters into the artifact. -/
def encodeClassifier (c : Classifier) : Blob :=
  (c.coef.length : ℚ) :: (c.coef ++ c.intercept :: c.classes.map (fun z : Int => (z : ℚ)))

/-- Recover an integer from a rational, the partial inverse of the cast. -/
def ratToInt? (q : ℚ) : Option Int :=
  if q.den = 1 then some q.num else none

/-- Deserialize an artifact back into classifier parameters; `none` models
a structurally corrupt artifact. -/
def decodeClassifier (b : Blob) : Option Classifier :=
  match b with
  | [] => none
  | n :: rest =>
    (ratToInt? n).bind fun k =>
      if k.toNat + 1 ≤ rest.length then
        ((rest.drop (k.toNat + 1)).mapM ratToInt?).map fun classes =>
          ⟨rest.take k.toNat, (rest.drop k.toNat).headD 0, classes⟩
      else none

/-- The filesystem as a map from paths to written blobs. -/
abbrev FileSystem := List (String × Blob)

/-- `DelayModel.save_model` (model.py lines 174-191): raises `ValueError`
when `self._model is None`, otherwise pickles the model to the path. -/
def save_model (model : Option Classifier) (fs : FileSystem) (filepath : String) :
    Except String FileSystem :=
  match model with
  | none => .error "No model to save. Train the model first using fit()."
  | some c => .ok ((filepath, encodeClassifier c) :: fs)

/-- `DelayModel.load_model` (model.py lines 193-207): raises
`FileNotFoundError` when the path does not exist, otherwise unpickles the
stored classifier; a blob that does not decode is a corrupt artifact. -/
def load_model (fs : FileSystem) (filepath : String) : Except String Classifier :=
  match fs.lookup filepath with
  | none => .error ("Model file not found: " ++ filepath)
  | some b =>
    match decodeClassifier b with
    | none => .error "CorruptArtifact"
    | some c => .ok c

/-! ## The serving validator (`_validate` in api.py) -/

/-- A JSON value arriving in the `MES` field of a prediction request. -/
inductive PyMes
  | int (n : Int)
  | str (s : String)
  | float (q : ℚ)
deriving DecidableEq, Repr

/-- Accumulate decimal digits; `none` as soon as a non-digit appears. -/
def digitsAux : List Char → Nat → Option Nat
  | [], acc => some acc
  | c :: cs, acc =>
    if c.isDigit then digitsAux cs (acc * 10 + (c.toNat - Char.toNat '0')) else none

/-- A non-empty all-digit character list read as a number. -/
def digitsToNat? : List Char → Option Nat
  | [] => none
  | cs => digitsAux cs 0

/-- Python `int()` on a string: an optional sign followed by one or more
decimal digits (the surrounding whitespace and digit-group underscores that
Python also tolerates are not modelled; no claim exercises them); `none`
models the `ValueError` raised on anything else. -/
def pyIntOfString (s : String) : Option Int :=
  match s.data with
  | '-' :: cs => (digitsToNat? cs).map (fun n => -(n : Int))
  | '+' :: cs => (digitsToNat? cs).map (fun n => (n : Int))
  | cs => (digitsToNat? cs).map (fun n => (n : Int))

/-- Python `int()` applied to the `MES` value: an int is returned as is, a
string must spell a decimal integer (otherwise `ValueError`, modelled as
`none`), a float is truncated toward zero. -/
def pyInt : PyMes → Option Int
  | .int n => some n
  | .str s => pyIntOfString s
  | .float q => some (Int.tdiv q.num (q.den : Int))

/-- One entry of the `"flights"` list of the request payload: a field is
`none` when the key is absent from the JSON object. -/
structure RawFlight where
  opera : Option String
  tipovuelo : Option String
  mes : Option PyMes
deriving DecidableEq, Repr

/-- The five carriers of `valid_ops` (api.py lines 119-125). -/
def valid_ops : List String :=
  [ "Aerolineas Argentinas", "Grupo LATAM", "Sky Airline", "Copa Air"
  , "Latin American Wings" ]

/-- How a `_validate` call terminates abnormally: `http400` is the
`fastapi.HTTPException(status_code=400)` client-input rejection, `pyErr` a
`ValueError` escaping from `int(mes)`. -/
inductive VErr
  | http400
  | pyErr
deriving DecidableEq, Repr

/-- The body of the `_validate` loop (api.py lines 127-135) for one flight:
the key-presence check, then the short-circuit chain
`opera not in valid_ops or tipo not in {"I", "N"} or not (1 <= int(mes) <= 12)`,
then the row appended on success. -/
def validateFlight (f : RawFlight) : Except VErr (String × String × Int) :=
  match f.opera, f.tipovuelo, f.mes with
  | some op, some tp, some mes =>
    if op ∉ valid_ops then .error .http400
    else if ¬ (tp = "I" ∨ tp = "N") then .error .http400
    else
      match pyInt mes with
      | none => .error .pyErr
      | some m => if 1 ≤ m ∧ m ≤ 12 then .ok (op, tp, m) else .error .http400
  | _, _, _ => .error .http400

/-- `_validate` over the whole `"flights"` list: rows accumulate in order
and the first raising record aborts the whole batch. -/
def validate : List RawFlight → Except VErr (List (String × String × Int))
  | [] => .ok []
  | f :: rest => do
    let r ← validateFlight f
    let rs ← validate rest
    pure (r :: rs)

/-- The defect predicate of claim C3, read literally: the record's operator
is outside the five carriers, or its flight type is outside {I, N}, or its
`MES` value is not an integer in [1, 12]. -/
def claimBadRecord (f : RawFlight) : Prop :=
  (∃ op, f.opera = some op ∧ op ∉ valid_ops)
    ∨ (∃ tp, f.tipovuelo = some tp ∧ tp ≠ "I" ∧ tp ≠ "N")
    ∨ (∃ m, f.mes = some m ∧ ¬ ∃ n : Int, m = PyMes.int n ∧ 1 ≤ n ∧ n ≤ 12)

/-- A record that `_validate` accepts: all three keys present, a known
carrier, a known flight type, and a `MES` value whose `int()` conversion
lands in [1, 12]. -/
def recordOk (f : RawFlight) : Prop :=
  ∃ op tp m n, f.opera = some op ∧ op ∈ valid_ops
    ∧ f.tipovuelo = some tp ∧ (tp = "I" ∨ tp = "N")
    ∧ f.mes = some m ∧ pyInt m = some n ∧ 1 ≤ n ∧ n ≤ 12

/-- A record whose `MES` value, when the earlier checks pass, converts via
`int()` without raising. -/
def mesConvertible (f : RawFlight) : Prop :=
  ∀ m, f.mes = some m → pyInt m ≠ none

/-! ### Lemmas about dummy-column lookup -/

theorem find_operaDummy (vs : List String) (v : String) :
    (vs.map operaDummy).find? (fun col => decide (col.1 = ColName.opera v)) =
      if v ∈ vs then some (operaDummy v) else none := by
  induction vs with
  | nil => simp
  | cons w ws ih =>
    by_cases hw : w = v
    · subst hw
      rw [List.map_cons, List.find?_cons_of_pos _ (by simp [operaDummy])]
      simp
    · rw [List.map_cons, List.find?_cons_of_neg _ (by simp [operaDummy, hw]), ih]
      have hvw : v ≠ w := fun h => hw h.symm
      by_cases hv : v ∈ ws
      · simp [hv]
      · simp [hv, hvw]

theorem find_tipovueloDummy (vs : List String) (v : String) :
    (vs.map tipovueloDummy).find? (fun col => decide (col.1 = ColName.tipovuelo v)) =
      if v ∈ vs then some (tipovueloDummy v) else none := by
  induction vs with
  | nil => simp
  | cons w ws ih =>
    by_cases hw : w = v
    · subst hw
      rw [List.map_cons, List.find?_cons_of_pos _ (by simp [tipovueloDummy])]
      simp
    · rw [List.map_cons, List.find?_cons_of_neg _ (by simp [tipovueloDummy, hw]), ih]
      have hvw : v ≠ w := fun h => hw h.symm
      by_cases hv : v ∈ ws
      · simp [hv]
      · simp [hv, hvw]

theorem find_mesDummy (vs : List Nat) (v : Nat) :
    (vs.map mesDummy).find? (fun col => decide (col.1 = ColName.mes v)) =
      if v ∈ vs then some (mesDummy v) else none := by
  induction vs with
  | nil => simp
  | cons w ws ih =>
    by_cases hw : w = v
    · subst hw
      rw [List.map_cons, List.find?_cons_of_pos _ (by simp [mesDummy])]
      simp
    · rw [List.map_cons, List.find?_cons_of_neg _ (by simp [mesDummy, hw]), ih]
      have hvw : v ≠ w := fun h => hw h.symm
      by_cases hv : v ∈ ws
      · simp [hv]
      · simp [hv, hvw]

theorem featureValue_opera (batch : List FlightRecord) (r : FlightRecord)
    (h : r ∈ batch) (v : String) :
    featureValue batch (.opera v) r = if r.opera = v then 1 else 0 := by
  unfold featureValue getDummies
  rw [List.find?_append, List.find?_append, find_operaDummy,
    List.find?_eq_none.mpr (by simp [tipovueloDummy]),
    List.find?_eq_none.mpr (by simp [mesDummy])]
  by_cases hv : v ∈ (batch.map (·.opera)).dedup
  · simp [hv, operaDummy]
  · have : r.opera ≠ v := by
      intro he
      exact hv (by simpa [List.mem_dedup, he] using List.mem_map_of_mem (·.opera) h)
    simp [hv, this]

theorem featureValue_tipovuelo (batch : List FlightRecord) (r : FlightRecord)
    (h : r ∈ batch) (v : String) :
    featureValue batch (.tipovuelo v) r = if r.tipovuelo = v then 1 else 0 := by
  unfold featureValue getDummies
  rw [List.find?_append, List.find?_append,
    List.find?_eq_none.mpr (by simp [operaDummy]), find_tipovueloDummy,
    List.find?_eq_none.mpr (by simp [mesDummy])]
  by_cases hv : v ∈ (batch.map (·.tipovuelo)).dedup
  · simp [hv, tipovueloDummy]
  · have : r.tipovuelo ≠ v := by
      intro he
      exact hv (by simpa [List.mem_dedup, he] using List.mem_map_of_mem (·.tipovuelo) h)
    simp [hv, this]

theorem featureValue_mes (batch : List FlightRecord) (r : FlightRecord)
    (h : r ∈ batch) (v : Nat) :
    featureValue batch (.mes v) r = if r.mes = v then 1 else 0 := by
  unfold featureValue getDummies
  rw [List.find?_append, List.find?_append,
    List.find?_eq_none.mpr (by simp [operaDummy]),
    List.find?_eq_none.mpr (by simp [tipovueloDummy]), find_mesDummy]
  by_cases hv : v ∈ (batch.map (·.mes)).dedup
  · simp [hv, mesDummy]
  · have : r.mes ≠ v := by
      intro he
      exact hv (by simpa [List.mem_dedup, he] using List.mem_map_of_mem (·.mes) h)
    simp [hv, this]

theorem preprocessRow_eq_encodeRecord (batch : List FlightRecord) (r : FlightRecord)
    (h : r ∈ batch) : preprocessRow batch r = encodeRecord r := by
  unfold preprocessRow encodeRecord TOP_10_FEATURES
  simp only [List.map_cons, List.map_nil,
    featureValue_opera batch r h, featureValue_tipovuelo batch r h,
    featureValue_mes batch r h, indicator]

/-- C1: the ten-entry feature vector produced by `preprocess` for a record is
exactly the per-record equality-test indicator vector over the fixed catalog
(positions `OPERA_Latin American Wings`, `MES_7`, `MES_10`,
`OPERA_Grupo LATAM`, `MES_12`, `TIPOVUELO_I`, `MES_4`, `MES_11`,
`OPERA_Sky Airline`, `OPERA_Copa Air`, in that order), hence depends only on
the record's own `OPERA`, `TIPOVUELO` and `MES` values and is identical in
every batch containing the record: the dummy-encode-then-reindex
implementation refines the per-record indicator function, and every vector
has exactly 10 entries. -/
theorem preprocess_eq_per_record_indicator :
    (∀ batch : List FlightRecord, preprocess batch = batch.map encodeRecord) ∧
      (∀ r : FlightRecord, (encodeRecord r).length = 10) := by
  constructor
  · intro batch
    unfold preprocess
    exact List.map_congr_left (fun r hr => preprocessRow_eq_encodeRecord batch r hr)
  · intro r
    simp [encodeRecord, TOP_10_FEATURES]

/-! ### Lemmas about the serving validator -/

theorem validateFlight_ok (f : RawFlight) (op tp : String) (m : PyMes) (n : Int)
    (ho : f.opera = some op) (hop : op ∈ valid_ops)
    (ht : f.tipovuelo = some tp) (htp : tp = "I" ∨ tp = "N")
    (hm : f.mes = some m) (hpy : pyInt m = some n) (h1 : 1 ≤ n) (h2 : n ≤ 12) :
    validateFlight f = .ok (op, tp, n) := by
  obtain ⟨fo, ft, fm⟩ := f
  cases ho
  cases ht
  cases hm
  unfold validateFlight
  dsimp only
  rw [if_neg (not_not_intro hop), if_neg (not_not_intro htp), hpy]
  simp [h1, h2]

theorem validateFlight_pyErr (f : RawFlight) (op tp : String) (m : PyMes)
    (ho : f.opera = some op) (hop : op ∈ valid_ops)
    (ht : f.tipovuelo = some tp) (htp : tp = "I" ∨ tp = "N")
    (hm : f.mes = some m) (hpy : pyInt m = none) :
    validateFlight f = .error .pyErr := by
  obtain ⟨fo, ft, fm⟩ := f
  cases ho
  cases ht
  cases hm
  unfold validateFlight
  dsimp only
  rw [if_neg (not_not_intro hop), if_neg (not_not_intro htp), hpy]

theorem validateFlight_ok_of_recordOk (f : RawFlight) (h : recordOk f) :
    ∃ r, validateFlight f = .ok r := by
  obtain ⟨op, tp, m, n, ho, hop, ht, htp, hm, hpy, h1, h2⟩ := h
  exact ⟨(op, tp, n), validateFlight_ok f op tp m n ho hop ht htp hm hpy h1 h2⟩

theorem recordOk_of_validateFlight_ok (f : RawFlight) (r : String × String × Int)
    (h : validateFlight f = .ok r) : recordOk f := by
  obtain ⟨fo, ft, fm⟩ := f
  cases fo with
  | none => exact absurd h (by simp [validateFlight])
  | some op =>
  cases ft with
  | none => exact absurd h (by simp [validateFlight])
  | some tp =>
  cases fm with
  | none => exact absurd h (by simp [validateFlight])
  | some m =>
  unfold validateFlight at h
  dsimp only at h
  by_cases hop : op ∈ valid_ops
  case neg =>
    rw [if_pos hop] at h
    exact Except.noConfusion h
  rw [if_neg (not_not_intro hop)] at h
  by_cases htp : tp = "I" ∨ tp = "N"
  case neg =>
    rw [if_pos htp] at h
    exact Except.noConfusion h
  rw [if_neg (not_not_intro htp)] at h
  cases hpm : pyInt m with
  | none =>
    rw [hpm] at h
    exact Except.noConfusion h
  | some n =>
    rw [hpm] at h
    by_cases hr : 1 ≤ n ∧ n ≤ 12
    · exact ⟨op, tp, m, n, rfl, hop, rfl, htp, rfl, hpm, hr.1, hr.2⟩
    · dsimp only at h
      rw [if_neg hr] at h
      exact Except.noConfusion h

theorem validateFlight_http400 (f : RawFlight) (hbad : ¬ recordOk f)
    (hconv : mesConvertible f) : validateFlight f = .error .http400 := by
  obtain ⟨fo, ft, fm⟩ := f
  cases fo with
  | none => rfl
  | some op =>
  cases ft with
  | none => rfl
  | some tp =>
  cases fm with
  | none => rfl
  | some m =>
  unfold validateFlight
  dsimp only
  by_cases hop : op ∈ valid_ops
  case neg => rw [if_pos hop]
  rw [if_neg (not_not_intro hop)]
  by_cases htp : tp = "I" ∨ tp = "N"
  case neg => rw [if_pos htp]
  rw [if_neg (not_not_intro htp)]
  cases hpm : pyInt m with
  | none => exact absurd hpm (hconv m rfl)
  | some n =>
    by_cases hr : 1 ≤ n ∧ n ≤ 12
    · exact absurd ⟨op, tp, m, n, rfl, hop, rfl, htp, rfl, hpm, hr.1, hr.2⟩ hbad
    · dsimp only
      rw [if_neg hr]

theorem validate_ok_of_all_ok (batch : List RawFlight)
    (h : ∀ f ∈ batch, recordOk f) :
    ∃ rows, validate batch = .ok rows ∧ rows.length = batch.length := by
  induction batch with
  | nil => exact ⟨[], rfl, rfl⟩
  | cons f rest ih =>
    obtain ⟨r, hr⟩ := validateFlight_ok_of_recordOk f (h f (by simp))
    obtain ⟨rows, hrows, hlen⟩ := ih (fun g hg => h g (List.mem_cons_of_mem f hg))
    refine ⟨r :: rows, ?_, by simp [hlen]⟩
    simp only [validate]
    rw [hr, hrows]
    rfl

theorem validate_error_of_exists_bad (batch : List RawFlight)
    (h : ∃ f ∈ batch, ¬ recordOk f) : ∃ e, validate batch = .error e := by
  induction batch with
  | nil =>
    obtain ⟨f, hf, -⟩ := h
    exact absurd hf (List.not_mem_nil f)
  | cons f rest ih =>
    cases hv : validateFlight f with
    | error e =>
      refine ⟨e, ?_⟩
      simp only [validate]
      rw [hv]
      rfl
    | ok r =>
      have hfok : recordOk f := recordOk_of_validateFlight_ok f r hv
      have hrest : ∃ g ∈ rest, ¬ recordOk g := by
        obtain ⟨g, hg, hbad⟩ := h
        rcases List.mem_cons.mp hg with rfl | hg2
        · exact absurd hfok hbad
        · exact ⟨g, hg2, hbad⟩
      obtain ⟨e, he⟩ := ih hrest
      refine ⟨e, ?_⟩
      simp only [validate]
      rw [hv, he]
      rfl

theorem validate_http400_of_bad_convertible (batch : List RawFlight)
    (hbad : ∃ f ∈ batch, ¬ recordOk f) (hconv : ∀ f ∈ batch, mesConvertible f) :
    validate batch = .error .http400 := by
  induction batch with
  | nil =>
    obtain ⟨f, hf, -⟩ := hbad
    exact absurd hf (List.not_mem_nil f)
  | cons f rest ih =>
    by_cases hfok : recordOk f
    · obtain ⟨r, hr⟩ := validateFlight_ok_of_recordOk f hfok
      have hrest : ∃ g ∈ rest, ¬ recordOk g := by
        obtain ⟨g, hg, hbadg⟩ := hbad
        rcases List.mem_cons.mp hg with rfl | hg2
        · exact absurd hfok hbadg
        · exact ⟨g, hg2, hbadg⟩
      have := ih hrest (fun g hg => hconv g (List.mem_cons_of_mem f hg))
      simp only [validate]
      rw [hr, this]
      rfl
    · have h400 := validateFlight_http400 f hfok (hconv f (by simp))
      simp only [validate]
      rw [h400]
      rfl

/-- C2: for every pair of parsed timestamps, the delay label is 1 exactly
when the actual departure exceeds the scheduled one by strictly more than
15 minutes (900 seconds); at the boundary, a difference of exactly 15
minutes gives label 0, 16 minutes gives 1, and an early departure gives 0. -/
theorem delay_label_threshold :
    (∀ o i : PyDateTime,
        (delayTarget (.parsed o) (.parsed i) = 1 ↔ 900 < toSeconds o - toSeconds i)) ∧
      delayTarget (.parsed ⟨2017, 1, 1, 10, 16, 0⟩) (.parsed ⟨2017, 1, 1, 10, 0, 0⟩) = 1 ∧
      delayTarget (.parsed ⟨2017, 1, 1, 10, 15, 0⟩) (.parsed ⟨2017, 1, 1, 10, 0, 0⟩) = 0 ∧
      delayTarget (.parsed ⟨2017, 1, 1, 9, 55, 0⟩) (.parsed ⟨2017, 1, 1, 10, 0, 0⟩) = 0 := by
  refine ⟨?_,
    by norm_num [delayTarget, delayOf, calculate_min_diff, strptimeCell,
      threshold_in_minutes, toSeconds, daysFromCivil],
    by norm_num [delayTarget, delayOf, calculate_min_diff, strptimeCell,
      threshold_in_minutes, toSeconds, daysFromCivil],
    by norm_num [delayTarget, delayOf, calculate_min_diff, strptimeCell,
      threshold_in_minutes, toSeconds, daysFromCivil]⟩
  intro o i
  have key : ((15 : ℚ) < ((toSeconds o - toSeconds i : Int) : ℚ) / 60)
      ↔ (900 < toSeconds o - toSeconds i) := by
    rw [lt_div_iff₀ (by norm_num : (0 : ℚ) < 60)]
    norm_num
    exact_mod_cast Iff.rfl
  have expand : delayTarget (.parsed o) (.parsed i)
      = if (15 : ℚ) < ((toSeconds o - toSeconds i : Int) : ℚ) / 60 then 1 else 0 := rfl
  rw [expand]
  by_cases h : (15 : ℚ) < ((toSeconds o - toSeconds i : Int) : ℚ) / 60
  · rw [if_pos h]
    simpa using key.mp h
  · rw [if_neg h]
    simpa using mt key.mpr h

/-- C4: with no classifier loaded, `predict` returns the zero label for
every one of its n feature rows without failing; in particular, on the
preprocessed valid two-record batch {Grupo LATAM, I, 7}, {Sky Airline,
N, 12} it returns [0, 0]. -/
theorem predict_no_model_returns_zeros :
    (∀ features : List (List ℚ), predict none features = List.replicate features.length 0) ∧
      predict none (toQMatrix (preprocess
        [⟨"Grupo LATAM", "I", 7⟩, ⟨"Sky Airline", "N", 12⟩])) = [0, 0] :=
  ⟨fun _ => rfl, rfl⟩

/-- C6: a training row whose scheduled or actual departure timestamp string
is malformed (fails `strptime`) does not raise: its minute difference is
treated as 0 and its delay label is 0. -/
theorem malformed_timestamp_label_zero :
    ∀ fechaO fechaI : FechaCell,
      fechaO = .malformed ∨ fechaI = .malformed →
        calculate_min_diff fechaO fechaI = 0 ∧ delayTarget fechaO fechaI = 0 := by
  intro fo fi h
  rcases h with h | h
  · subst h
    exact ⟨rfl, rfl⟩
  · subst h
    cases fo <;> exact ⟨rfl, rfl⟩

/-- Witness for C6 at a concrete row: malformed `Fecha-O`, parseable
`Fecha-I`. -/
theorem malformed_timestamp_label_zero_witness :
    calculate_min_diff .malformed (.parsed ⟨2017, 1, 1, 10, 0, 0⟩) = 0 ∧
      delayTarget .malformed (.parsed ⟨2017, 1, 1, 10, 0, 0⟩) = 0 :=
  malformed_timestamp_label_zero _ _ (Or.inl rfl)

/-- C9: a training row whose `Fecha-O` or `Fecha-I` field is entirely
absent or holds a non-string value is also silently assigned minute
difference 0 and label 0: the bare `except` catches `KeyError` and
`TypeError` as well as `ValueError`. -/
theorem missing_or_nonstring_label_zero :
    ∀ fechaO fechaI : FechaCell,
      (fechaO = .missing ∨ fechaO = .nonString ∨ fechaI = .missing ∨ fechaI = .nonString) →
        calculate_min_diff fechaO fechaI = 0 ∧ delayTarget fechaO fechaI = 0 := by
  intro fo fi h
  rcases h with h | h | h | h
  · subst h
    exact ⟨rfl, rfl⟩
  · subst h
    exact ⟨rfl, rfl⟩
  · subst h
    cases fo <;> exact ⟨rfl, rfl⟩
  · subst h
    cases fo <;> exact ⟨rfl, rfl⟩

/-- Witness for C9 at a concrete row: absent `Fecha-O`, and separately a
non-string `Fecha-I` next to a parseable `Fecha-O`. -/
theorem missing_or_nonstring_label_zero_witness :
    calculate_min_diff .missing (.parsed ⟨2017, 1, 1, 10, 0, 0⟩) = 0 ∧
      delayTarget .missing (.parsed ⟨2017, 1, 1, 10, 0, 0⟩) = 0 :=
  missing_or_nonstring_label_zero _ _ (Or.inl rfl)

theorem ratToInt_intCast (z : Int) : ratToInt? ((z : ℚ)) = some z := by
  simp [ratToInt?]

theorem mapM_ratToInt_map (l : List Int) :
    (l.map (fun z : Int => (z : ℚ))).mapM ratToInt? = some l := by
  induction l with
  | nil => rfl
  | cons a t ih =>
    rw [List.map_cons, List.mapM_cons, ratToInt_intCast, ih]
    rfl

theorem decodeClassifier_encodeClassifier (c : Classifier) :
    decodeClassifier (encodeClassifier c) = some c := by
  obtain ⟨coef, intercept, classes⟩ := c
  have hk : ratToInt? ((coef.length : ℚ)) = some (coef.length : Int) := by
    simp [ratToInt?]
  have hsplit : coef ++ intercept :: classes.map (fun z : Int => (z : ℚ))
      = (coef ++ [intercept]) ++ classes.map (fun z : Int => (z : ℚ)) :=
    List.append_cons coef intercept (classes.map (fun z : Int => (z : ℚ)))
  have hlen : (coef ++ intercept :: classes.map (fun z : Int => (z : ℚ))).length
      = coef.length + (classes.length + 1) := by
    rw [List.length_append, List.length_cons, List.length_map]
  simp only [encodeClassifier, decodeClassifier, hk, Option.some_bind, Int.toNat_natCast]
  rw [if_pos (by rw [hlen]; omega : coef.length + 1 ≤ (coef ++ intercept ::
    classes.map (fun z : Int => (z : ℚ))).length)]
  rw [List.take_left, List.drop_left]
  rw [hsplit, List.drop_left' (by simp), mapM_ratToInt_map]
  rfl

/-- C8: saving a trained classifier with `save_model` and loading the
artifact back with `load_model` succeeds and yields a classifier whose
predictions agree with the original's on every fixed input set: the
persisted weight vector, intercept and class labels determine predictions. -/
theorem save_load_roundtrip :
    ∀ (c : Classifier) (fs : FileSystem) (filepath : String) (xs : List (List ℚ)),
      ∃ fs2 c2, save_model (some c) fs filepath = .ok fs2 ∧
        load_model fs2 filepath = .ok c2 ∧
        predict (some c2) xs = predict (some c) xs := by
  intro c fs filepath xs
  refine ⟨(filepath, encodeClassifier c) :: fs, c, rfl, ?_, rfl⟩
  have hlu : List.lookup filepath ((filepath, encodeClassifier c) :: fs)
      = some (encodeClassifier c) := by
    simp [List.lookup]
  unfold load_model
  rw [hlu]
  simp [decodeClassifier_encodeClassifier]

/-- C7 (the part of `fit` that lives in this repository): on a non-empty
all-zero label set the class-weight computation is well-defined — no
division failure — and assigns weight 0 to the present class 0 and weight 1
to the absent class 1. (The subsequent hard failure happens inside the
external solver, see RESULTS.) -/
theorem single_class_weights :
    ∀ target : List Int, target ≠ [] → (∀ l ∈ target, l = 0) →
      (classWeights target).1 = 1 ∧ (classWeights target).2 = 0 := by
  intro target hne hall
  have h0 : target.filter (fun l => decide (l = 0)) = target := by
    rw [List.filter_eq_self]
    intro a ha
    simpa using hall a ha
  have h1 : target.filter (fun l => decide (l = 1)) = [] := by
    rw [List.filter_eq_nil_iff]
    intro a ha
    simp [hall a ha]
  have hlen : (target.length : ℚ) ≠ 0 := by
    exact_mod_cast fun h => hne (List.length_eq_zero.mp (by exact_mod_cast h))
  refine ⟨?_, ?_⟩
  · simp only [classWeights, h0]
    exact div_self hlen
  · simp [classWeights, h1]

/-- Witness for C7's class-weight theorem on the concrete single-class
label set [0, 0, 0]. -/
theorem single_class_weights_witness :
    (classWeights [0, 0, 0]).1 = 1 ∧ (classWeights [0, 0, 0]).2 = 0 :=
  single_class_weights [0, 0, 0] (by decide) (by decide)

/-- C3 counterexample: the record {OPERA: "Grupo LATAM", TIPOVUELO: "I",
MES: "7"} carries a MES value that is not an integer in [1, 12] (it is the
string "7"), so the claim requires the batch to be rejected with a
client-input error; `_validate` instead accepts the batch. -/
theorem validate_claim_counterexample :
    (∃ f ∈ [RawFlight.mk (some "Grupo LATAM") (some "I") (some (PyMes.str "7"))],
        claimBadRecord f) ∧
      validate [RawFlight.mk (some "Grupo LATAM") (some "I") (some (PyMes.str "7"))]
        ≠ Except.error VErr.http400 := by
  have hval : validate [RawFlight.mk (some "Grupo LATAM") (some "I") (some (PyMes.str "7"))]
      = Except.ok [("Grupo LATAM", "I", 7)] := rfl
  refine ⟨⟨_, List.mem_singleton.mpr rfl, Or.inr (Or.inr ⟨PyMes.str "7", rfl, ?_⟩)⟩, ?_⟩
  · rintro ⟨n, hn, -⟩
    cases hn
  · rw [hval]
    exact fun h => Except.noConfusion h

/-- C3 (amended): a batch whose records all pass the implemented checks —
keys present, operator among the five carriers, flight type in {I, N}, and
a MES value that `int()` converts into [1, 12] — is accepted whole, one
row per record; a batch containing any record failing these checks is
rejected whole with no partial results, and the rejection is the
client-input error 400 whenever every record's MES value is
`int()`-convertible (a failing conversion escapes as a non-client error
instead, see C10). -/
theorem validate_amended :
    ∀ batch : List RawFlight,
      ((∀ f ∈ batch, recordOk f) →
        ∃ rows, validate batch = .ok rows ∧ rows.length = batch.length) ∧
      ((∃ f ∈ batch, ¬ recordOk f) → ∃ e, validate batch = .error e) ∧
      ((∃ f ∈ batch, ¬ recordOk f) → (∀ f ∈ batch, mesConvertible f) →
        validate batch = .error .http400) :=
  fun batch =>
    ⟨validate_ok_of_all_ok batch, validate_error_of_exists_bad batch,
      fun h1 h2 => validate_http400_of_bad_convertible batch h1 h2⟩

/-- Witness for the amended C3: a fully valid singleton batch is accepted
with one row, and a batch containing an unknown carrier (with convertible
MES everywhere) is rejected with the client-input error. -/
theorem validate_amended_witness :
    (∃ rows, validate [RawFlight.mk (some "Grupo LATAM") (some "I") (some (PyMes.int 7))]
        = .ok rows ∧
        rows.length = [RawFlight.mk (some "Grupo LATAM") (some "I")
          (some (PyMes.int 7))].length) ∧
      validate [RawFlight.mk (some "Avianca") (some "I") (some (PyMes.int 7))]
        = .error .http400 := by
  constructor
  · refine (validate_amended _).1 ?_
    intro f hf
    rw [List.mem_singleton] at hf
    subst hf
    exact ⟨"Grupo LATAM", "I", PyMes.int 7, 7, rfl, by decide, rfl, Or.inl rfl, rfl, rfl,
      by decide, by decide⟩
  · refine (validate_amended _).2.2 ⟨_, List.mem_singleton.mpr rfl, ?_⟩ ?_
    · rintro ⟨op, tp, m, n, ho, hop, -⟩
      cases ho
      exact absurd hop (by decide)
    · intro f hf m hm
      rw [List.mem_singleton] at hf
      subst hf
      cases hm
      simp [pyInt]

/-- C10: the serving validator accepts any MES value whose `int()`
conversion lands in [1, 12] — the string "7" and the float 7.9 (truncated
to 7) are both accepted — while a MES value that `int()` cannot convert
(the string "abc") makes the conversion raise an error that escapes the
validator instead of the client-input rejection produced for other
invalid records. -/
theorem validator_int_coercion :
    validateFlight (RawFlight.mk (some "Grupo LATAM") (some "I") (some (PyMes.str "7")))
        = .ok ("Grupo LATAM", "I", 7) ∧
      validateFlight (RawFlight.mk (some "Grupo LATAM") (some "I")
          (some (PyMes.float (79 / 10))))
        = .ok ("Grupo LATAM", "I", 7) ∧
      validateFlight (RawFlight.mk (some "Grupo LATAM") (some "I") (some (PyMes.str "abc")))
        = .error .pyErr ∧
      VErr.pyErr ≠ VErr.http400 ∧
      (∀ (f : RawFlight) (op tp : String) (m : PyMes) (n : Int),
        f.opera = some op → op ∈ valid_ops →
        f.tipovuelo = some tp → (tp = "I" ∨ tp = "N") → f.mes = some m →
        pyInt m = some n → 1 ≤ n → n ≤ 12 →
        validateFlight f = .ok (op, tp, n)) ∧
      (∀ (f : RawFlight) (op tp : String) (m : PyMes),
        f.opera = some op → op ∈ valid_ops →
        f.tipovuelo = some tp → (tp = "I" ∨ tp = "N") → f.mes = some m →
        pyInt m = none → validateFlight f = .error .pyErr) := by
  refine ⟨rfl, ?_, rfl, by decide, ?_, ?_⟩
  · have hq : pyInt (PyMes.float (79 / 10)) = some 7 := by
      have hnum : ((79 : ℚ) / 10).num = 79 := by norm_num
      have hden : ((79 : ℚ) / 10).den = 10 := by norm_num
      show some (Int.tdiv ((79 / 10 : ℚ)).num (((79 / 10 : ℚ)).den : Int)) = some 7
      rw [hnum, hden]
      decide
    exact validateFlight_ok _ "Grupo LATAM" "I" (PyMes.float (79 / 10)) 7 rfl (by decide)
      rfl (Or.inl rfl) rfl hq (by decide) (by decide)
  · intro f op tp m n ho hop ht htp hm hpy h1 h2
    exact validateFlight_ok f op tp m n ho hop ht htp hm hpy h1 h2
  · intro f op tp m ho hop ht htp hm hpy
    exact validateFlight_pyErr f op tp m ho hop ht htp hm hpy

/-- Witness for C10's universally quantified conjuncts at concrete inputs:
an integer MES accepted, and an inconvertible string MES escaping as a
non-client error. -/
theorem validator_int_coercion_witness :
    validateFlight (RawFlight.mk (some "Sky Airline") (some "N") (some (PyMes.int 12)))
        = .ok ("Sky Airline", "N", 12) ∧
      validateFlight (RawFlight.mk (some "Copa Air") (some "N") (some (PyMes.str "x")))
        = .error .pyErr :=
  ⟨validator_int_coercion.2.2.2.2.1 _ "Sky Airline" "N" (PyMes.int 12) 12 rfl (by decide)
      rfl (Or.inr rfl) rfl rfl (by decide) (by decide),
    validator_int_coercion.2.2.2.2.2 _ "Copa Air" "N" (PyMes.str "x") rfl (by decide)
      rfl (Or.inr rfl) rfl (by decide)⟩

end Challenge
